import Mathlib

/-!
Verification of the `write` tool of the opencode repository.

The development shallowly embeds `writeTool.Run` from
`internal/llm/tools/write.go` (the second source file) together with the
collaborators it calls.  Pure Go string functions (`strings.Contains`,
`strings.HasPrefix`, `strings.TrimSpace`, `strings.ToLower`,
`strings.Split`, `filepath.Dir`, `filepath.Join`, `filepath.IsAbs`) are
embedded as executable Lean functions over `List Char`/`String`.
Collaborators whose code is not part of the sources (the history service,
the diff engine, the timestamp registry, the permission service, the LSP
diagnostics bridge) are modelled from the specification; each such
definition carries a doc comment saying so.  The filesystem is a partial
map from path strings to entries; time is an abstract `Nat` (the Go code
only ever compares timestamps with `Time.After` and prints them, so
monotone naturals are a faithful abstraction, with `toString` standing in
for RFC3339 rendering in messages).
-/

namespace OpenCodeWrite

/-- Go `strings.HasPrefix` on character lists (first argument is the string,
second the candidate prefix). -/
def hasPrefixL : List Char → List Char → Bool
  | _, [] => true
  | [], _ :: _ => false
  | a :: as, b :: bs => a == b && hasPrefixL as bs

/-- Go `strings.Contains` on character lists (first argument is the haystack,
second the needle). -/
def containsL : List Char → List Char → Bool
  | [], needle => needle.isEmpty
  | c :: t, needle => hasPrefixL (c :: t) needle || containsL t needle

/-- Split a character list at every occurrence of `sep`, mirroring Go
`strings.Split` with a one-character separator (always at least one piece). -/
def splitOnChar (sep : Char) (l : List Char) : List (List Char) :=
  l.foldr
    (fun c acc =>
      if c = sep then [] :: acc
      else
        match acc with
        | h :: t => (c :: h) :: t
        | [] => [[c]])
    [[]]

/-- The white-space class of Go `unicode.IsSpace` restricted to ASCII, used
by `strings.TrimSpace`. -/
def goTrimSpaceChar (c : Char) : Bool :=
  c = ' ' || c = '\t' || c = '\n' || c = '\x0b' || c = '\x0c' || c = '\r'

/-- Drop leading white space characters. -/
def dropLeadingSp : List Char → List Char
  | [] => []
  | c :: r => if goTrimSpaceChar c then dropLeadingSp r else c :: r

/-- Go `strings.TrimSpace` on character lists. -/
def trimGo (l : List Char) : List Char :=
  (dropLeadingSp (dropLeadingSp l).reverse).reverse

/-- Go `strings.ToLower` on character lists (the sources only ever feed it
ASCII probes, where `Char.toLower` agrees with Go). -/
def toLowerL (l : List Char) : List Char :=
  l.map Char.toLower

/-- The character class of `\s` in Go regular expressions. -/
def goSpace (c : Char) : Bool :=
  c = ' ' || c = '\t' || c = '\n' || c = '\x0c' || c = '\r'

/-- After the literal `print`, accept `\s*` followed by `(`. -/
def wsThenParen : List Char → Bool
  | [] => false
  | c :: rest => if c = '(' then true else if goSpace c then wsThenParen rest else false

/-- Matcher for the Go regular expression `print\s*\(` used by
`generateDefaultFilename` (unanchored search). -/
def printCallMatch : List Char → Bool
  | [] => false
  | c :: rest =>
      (match c :: rest with
       | 'p' :: 'r' :: 'i' :: 'n' :: 't' :: tail => wsThenParen tail
       | _ => false)
      || printCallMatch rest

/-- The character class of `\w` in Go regular expressions. -/
def isWordChar (c : Char) : Bool :=
  c.isAlphanum || c = '_'

/-- Continuation of `\w+:` after the first word character. -/
def wordColonRest : List Char → Bool
  | [] => false
  | c :: rest => if c = ':' then true else if isWordChar c then wordColonRest rest else false

/-- Require at least one word character followed eventually by `:`. -/
def wordColon : List Char → Bool
  | [] => false
  | c :: rest => if isWordChar c then wordColonRest rest else false

/-- Skip characters matching `\s`. -/
def skipGoSpaces : List Char → List Char
  | [] => []
  | c :: r => if goSpace c then skipGoSpaces r else c :: r

/-- Matcher for the anchored Go regular expression `^\s*\w+:\s*` used on the
first line by `generateDefaultFilename` (the trailing `\s*` always matches). -/
def yamlLineMatch (l : List Char) : Bool :=
  wordColon (skipGoSpaces l)

/-- Count the occurrences of a character, mirroring Go `strings.Count` with a
one-character substring. -/
def countChar (c : Char) (l : List Char) : Nat :=
  (l.filter (fun x => x = c)).length

/-- Python detection probe of `generateDefaultFilename` (the probe strings
are transcribed literally from the source). -/
def pyProbe (firstLine contentLower : List Char) : Bool :=
  hasPrefixL firstLine ("#!/usr/bin/env python".data)
    || hasPrefixL firstLine ("#!/usr/bin/python".data)
    || containsL contentLower ("def ".data)
    || containsL contentLower ("import ".data)
    || containsL contentLower ("from ".data)
    || printCallMatch contentLower

/-- C++ detection probe. -/
def cppProbe (contentLower : List Char) : Bool :=
  containsL contentLower ("#include".data) || containsL contentLower ("int main".data)
    || containsL contentLower ("std::".data) || containsL contentLower ("cout".data)

/-- C detection probe. -/
def cProbe (contentLower : List Char) : Bool :=
  containsL contentLower ("#include".data) && containsL contentLower ("printf".data)

/-- Java detection probe (the third probe string keeps the source's upper
case and can never fire on lower-cased content). -/
def javaProbe (contentLower : List Char) : Bool :=
  containsL contentLower ("public class".data)
    || containsL contentLower ("public static void main".data)
    || containsL contentLower ("System.out.println".data)

/-- JavaScript detection probe. -/
def jsProbe (contentLower : List Char) : Bool :=
  containsL contentLower ("function".data) || containsL contentLower ("console.log".data)
    || containsL contentLower ("const ".data) || containsL contentLower ("let ".data)
    || containsL contentLower ("var ".data) || containsL contentLower ("=>".data)

/-- Go detection probe. -/
def goProbe (contentLower : List Char) : Bool :=
  containsL contentLower ("func ".data) || containsL contentLower ("package main".data)
    || containsL contentLower ("import \"".data) || containsL contentLower ("fmt.".data)

/-- Rust detection probe. -/
def rustProbe (contentLower : List Char) : Bool :=
  containsL contentLower ("fn ".data) || containsL contentLower ("println!".data)
    || containsL contentLower ("use std::".data)

/-- HTML detection probe (the first probe string keeps the source's upper
case). -/
def htmlProbe (contentLower : List Char) : Bool :=
  containsL contentLower ("<!DOCTYPE".data) || containsL contentLower ("<html".data)
    || containsL contentLower ("<body".data) || containsL contentLower ("<div".data)

/-- XML detection probe. -/
def xmlProbe (contentLower : List Char) : Bool :=
  containsL contentLower ("<?xml".data) || containsL contentLower ("<xml".data)

/-- JSON detection probe. -/
def jsonProbe (contentLower : List Char) : Bool :=
  containsL contentLower ("\x7b".data) && containsL contentLower ("\x7d".data)
    && (containsL contentLower ("\"".data) || containsL contentLower (":".data))

/-- Shell-script detection probe. -/
def shProbe (firstLine contentLower : List Char) : Bool :=
  hasPrefixL firstLine ("#!/bin/bash".data) || hasPrefixL firstLine ("#!/bin/sh".data)
    || containsL contentLower ("echo ".data) || containsL contentLower ("if [".data)

/-- SQL detection probe. -/
def sqlProbe (contentLower : List Char) : Bool :=
  containsL contentLower ("select ".data) || containsL contentLower ("create table".data)
    || containsL contentLower ("insert into".data) || containsL contentLower ("update ".data)

/-- Markdown detection probe. -/
def mdProbe (firstLine contentLower : List Char) : Bool :=
  hasPrefixL firstLine ("#".data) || containsL contentLower ("##".data)
    || containsL contentLower ("\x60\x60\x60".data) || containsL contentLower ("**".data)

/-- INI detection probe. -/
def iniProbe (contentLower : List Char) : Bool :=
  containsL contentLower ("[".data) && containsL contentLower ("]".data)
    && containsL contentLower ("=".data)

/-- YAML detection probe. -/
def yamlProbe (firstLine contentLower : List Char) : Bool :=
  containsL contentLower ("---".data) || yamlLineMatch firstLine

/-- CSV detection probe. -/
def csvProbe (firstLine contentLower : List Char) : Bool :=
  containsL contentLower (",".data) && countChar ',' firstLine > 1

/-- The decision chain of `generateDefaultFilename` over the trimmed first
line and the lower-cased content, transcribed branch by branch from the
source. -/
def gdfSelect (firstLine contentLower : List Char) : String :=
  if pyProbe firstLine contentLower then "script.py"
  else if cppProbe contentLower then "program.cpp"
  else if cProbe contentLower then "program.c"
  else if javaProbe contentLower then "Program.java"
  else if jsProbe contentLower then "script.js"
  else if goProbe contentLower then "program.go"
  else if rustProbe contentLower then "program.rs"
  else if htmlProbe contentLower then "index.html"
  else if xmlProbe contentLower then "document.xml"
  else if jsonProbe contentLower then "data.json"
  else if shProbe firstLine contentLower then "script.sh"
  else if sqlProbe contentLower then "query.sql"
  else if mdProbe firstLine contentLower then "document.md"
  else if iniProbe contentLower then "config.ini"
  else if yamlProbe firstLine contentLower then "config.yaml"
  else if csvProbe firstLine contentLower then "data.csv"
  else "output.txt"

/-- Embedding of `generateDefaultFilename` from `write.go`: content-based
default file name chosen when the `file_path` parameter is empty; the
first line is taken from `strings.Split(strings.TrimSpace(content), "\n")`
(never empty, but the source's length guard is kept). -/
def generateDefaultFilename (content : String) : String :=
  let lines := splitOnChar '\n' (trimGo content.data)
  if lines.length = 0 then "output.txt" else
  gdfSelect (trimGo (lines.headD [])) (toLowerL content.data)

/-- Go `filepath.IsAbs` (paths are taken as already clean, as everywhere in
this model). -/
def isAbs (p : String) : Bool :=
  hasPrefixL p.data ("/".data)

/-- Go `filepath.Join` of two components, without the final `Clean` (the
sources only join a clean absolute working directory with a clean relative
path, where the two agree). -/
def joinPath (a b : String) : String :=
  if a = "" then b else a ++ ("/" ++ b)

/-- Intercalate path pieces with `/`. -/
def joinChars : List (List Char) → List Char
  | [] => []
  | [x] => x
  | x :: rest => x ++ '/' :: joinChars rest

/-- Go `filepath.Dir` on clean paths: everything before the last `/`, with
`.` for separator-free paths and `/` when the parent is the root. -/
def dirOf (p : String) : String :=
  match (splitOnChar '/' p.data).dropLast with
  | [] => "."
  | [[]] => "/"
  | parts => String.mk (joinChars parts)

/-- All the `/`-cut ancestors of a path (each proper prefix ending just
before a separator, plus the path itself), the directories Go
`os.MkdirAll` creates in order. -/
def cutAncestors : List Char → List Char → List String
  | acc, [] => [String.mk acc.reverse]
  | acc, c :: rest =>
      if c = '/' then String.mk acc.reverse :: cutAncestors (c :: acc) rest
      else cutAncestors (c :: acc) rest

/-- The non-empty ancestor chain `os.MkdirAll` walks for a directory. -/
def mkdirChain (d : String) : List String :=
  (cutAncestors [] d.data).filter (fun s => s ≠ "")

/-- A filesystem entry: a directory, or a regular file with content and
modification time. -/
inductive FsEntry where
  | dir : FsEntry
  | file (content : String) (modTime : Nat) : FsEntry
deriving DecidableEq

/-- The filesystem is a partial map from clean path strings to entries. -/
abbrev FS := String → Option FsEntry

/-- Point update of the filesystem. -/
def fsSet (fs : FS) (p : String) (e : FsEntry) : FS :=
  fun q => if q = p then some e else fs q

/-- Point update of a timestamp map. -/
def tsSet (t : String → Nat) (p : String) (v : Nat) : String → Nat :=
  fun q => if q = p then v else t q

/-- Go `os.MkdirAll`: creates every missing directory on the ancestor chain;
fails (as the Go call does with `ENOTDIR`) when a chain element already
exists as a regular file. -/
def mkdirAll (fs : FS) (d : String) : Except String FS :=
  if (mkdirChain d).any
      (fun p => match fs p with | some (FsEntry.file _ _) => true | _ => false) then
    Except.error "error creating directory"
  else
    Except.ok ((mkdirChain d).foldl (fun f p => fsSet f p FsEntry.dir) fs)

/-- Per-session, per-path ordered version history.  Modelled from the spec:
the `history.Service` implementation is not under `src/`; section 4.4
specifies an append-only list of full content snapshots per
`(session, path)` whose latest element is what `GetByPathAndSession`
reports. -/
abbrev Hist := String → String → List String

/-- Append one version snapshot for a `(session, path)` pair. -/
def histAppend (h : Hist) (sid path c : String) : Hist :=
  fun s q =>
    if s = sid then (if q = path then h s q ++ [c] else h s q) else h s q

/-- The `WriteParams` payload of a tool call (`file_path`, `content`). -/
structure WriteParams where
  filePath : String
  content : String
deriving DecidableEq

/-- The structured metadata attached to a successful response
(`WriteResponseMetadata` in the source). -/
structure WriteResponseMetadata where
  diff : String
  additions : Nat
  removals : Nat
deriving DecidableEq

/-- A tool response: rendered text, the error flag set by
`NewTextErrorResponse`, and optional attached metadata. -/
structure ToolResponse where
  content : String
  isError : Bool
  metadata : Option WriteResponseMetadata
deriving DecidableEq

/-- Response produced by `NewTextErrorResponse`. -/
def textError (s : String) : ToolResponse :=
  { content := s, isError := true, metadata := none }

/-- A permission request as assembled by `writeTool.Run`
(`permission.CreatePermissionRequest` with the `WritePermissionsParams`
payload flattened). -/
structure CreatePermissionRequest where
  sessionID : String
  path : String
  toolName : String
  action : String
  description : String
  paramsFilePath : String
  paramsDiff : String
deriving DecidableEq

/-- The mutable state a run of the write tool touches: the filesystem, the
process-wide timestamp registry (last read / last write per path, absent
paths reading as the caller's default), and the version store. -/
structure WState where
  fs : FS
  lastRead : String → Nat
  lastWrite : String → Nat
  hist : Hist

/-- The static environment of one run: configuration, call context, the
decisions of the external collaborators, and the clock.  `permGrant` is the
boolean the permission service resolves to; `writeOk`, `createOk` and
`versionOk` are the outcomes of `os.WriteFile`, `history.Create` and
`history.CreateVersion`; `diagnostics` is modelled from the spec (the LSP
bridge is not under `src/`): the already-rendered diagnostics block for a
path, empty when no backend returned findings. -/
structure Env where
  workingDir : String
  sessionID : String
  messageID : String
  permGrant : Bool
  writeOk : Bool
  createOk : Bool
  versionOk : Bool
  now : Nat
  diagnostics : String → String

/-- Everything observable about one run: the returned
`(ToolResponse, error)` pair, the final state, the permission requests
issued, and the debug-log lines emitted. -/
structure RunResult where
  res : Except String ToolResponse
  state : WState
  permReqs : List CreatePermissionRequest
  log : List String

/-- Modelled from the spec: `diff.GenerateDiff` is not under `src/`.
Section 4.2 requires a deterministic pure function with
`diff(x, x, p) = ("", 0, 0)` and `additions + removals = 0` iff the texts
are equal; the counts here are the line counts outside a common multiset of
lines. -/
def countCommon : List (List Char) → List (List Char) → Nat
  | [], _ => 0
  | x :: xs, ys => if ys.contains x then 1 + countCommon xs (ys.erase x) else countCommon xs ys

/-- Modelled from the spec (section 4.2): rendered diff, added-line count and
removed-line count for an old/new content pair. -/
def generateDiff (old neu : String) (path : String) : String × Nat × Nat :=
  if old = neu then ("", 0, 0)
  else
    let oldLines := if old = "" then [] else splitOnChar '\n' old.data
    let newLines := if neu = "" then [] else splitOnChar '\n' neu.data
    let common := countCommon oldLines newLines
    ("--- " ++ path ++ ("\n+++ " ++ path), newLines.length - common, oldLines.length - common)

/-- The stale-write rejection message of `writeTool.Run`, with `toString`
on abstract `Nat` instants standing in for RFC3339 rendering. -/
def staleMsg (f : String) (m r : Nat) : String :=
  (("File " ++ f) ++ " ") ++
    ("has been modified since it was last read.\nLast modification: " ++
      (toString m ++ ("\nLast read: " ++
        (toString r ++ "\n\nPlease read the file again before modifying it."))))

/-- The no-op message of `writeTool.Run`. -/
def noChangesMsg (f : String) : String :=
  (("File " ++ f) ++ " ") ++ "already contains the exact content. No changes made."

/-- The success body of `writeTool.Run`: the `<result>` envelope followed by
the diagnostics block. -/
def successBody (env : Env) (f : String) : String :=
  ("<result>\nFile successfully written: " ++ (f ++ "\n</result>")) ++ env.diagnostics f

/-- Version-store bookkeeping and response assembly after a successful
filesystem write, mirroring lines 526-561 of the source: `latestContent` is
the `file.Content` field in scope at the drift check (the Go zero value `""`
when no version existed), the drift version and the agent version are
appended by `CreateVersion` whose failure is only logged, then both
timestamps are recorded and the response is built. -/
def versionPhase (env : Env) (stA : WState) (latestContent content oldContent filePath : String)
    (req : CreatePermissionRequest) (d : String × Nat × Nat) : RunResult :=
  let stepB : WState × List String :=
    if latestContent ≠ oldContent then
      if env.versionOk then
        ({ stA with hist := histAppend stA.hist env.sessionID filePath oldContent }, [])
      else (stA, ["Error creating file history version"])
    else (stA, [])
  let stepC : WState × List String :=
    if env.versionOk then
      ({ stepB.1 with hist := histAppend stepB.1.hist env.sessionID filePath content }, [])
    else (stepB.1, ["Error creating file history version"])
  let stD : WState :=
    { stepC.1 with
        lastWrite := tsSet stepC.1.lastWrite filePath env.now,
        lastRead := tsSet stepC.1.lastRead filePath env.now }
  { res := Except.ok
      { content := successBody env filePath,
        isError := false,
        metadata := some { diff := d.1, additions := d.2.1, removals := d.2.2 } },
    state := stD,
    permReqs := [req],
    log := stepB.2 ++ stepC.2 }

/-- The history lookup after a successful write (lines 526-546):
`GetByPathAndSession` reports the latest stored version or not-found; on
not-found the initial pre-image version is created by `Create`, whose
failure aborts the call, and the record in scope stays the Go zero value
(content `""`); then `versionPhase`. -/
def histPhase (env : Env) (st2 : WState) (content oldContent filePath : String)
    (req : CreatePermissionRequest) (d : String × Nat × Nat) : RunResult :=
  match (st2.hist env.sessionID filePath).getLast? with
  | none =>
      if env.createOk then
        versionPhase env
          { st2 with hist := histAppend st2.hist env.sessionID filePath oldContent }
          "" content oldContent filePath req d
      else { res := Except.error "error creating file history", state := st2,
             permReqs := [req], log := [] }
  | some latest => versionPhase env st2 latest content oldContent filePath req d

/-- The phase after the permission grant: `os.WriteFile` (an I/O failure
aborts the call before any bookkeeping, line 521-524), then `histPhase`. -/
def afterGrant (env : Env) (st1 : WState) (content oldContent filePath : String)
    (req : CreatePermissionRequest) (d : String × Nat × Nat) : RunResult :=
  if env.writeOk then
    histPhase env { st1 with fs := fsSet st1.fs filePath (FsEntry.file content env.now) }
      content oldContent filePath req d
  else { res := Except.error "error writing file", state := st1, permReqs := [req], log := [] }

/-- The permission request assembled at lines 499-516: the request path is
the working directory whenever it is a string prefix of the resolved file
path, otherwise the file's parent directory; the `WritePermissionsParams`
carry the file path and the rendered diff. -/
def mkReq (env : Env) (filePath : String) (d : String × Nat × Nat) : CreatePermissionRequest :=
  { sessionID := env.sessionID,
    path := if hasPrefixL filePath.data env.workingDir.data then env.workingDir
            else dirOf filePath,
    toolName := "write", action := "write",
    description := "Create file " ++ filePath,
    paramsFilePath := filePath, paramsDiff := d.1 }

/-- The phase after the consistency checks: `os.MkdirAll` on the parent
directory (lines 475-478), the session/message context check (488-491), the
diff (493-497), and the permission gate (499-519), then `afterGrant`. -/
def afterGuard (env : Env) (st : WState) (content oldContent filePath : String) : RunResult :=
  match mkdirAll st.fs (dirOf filePath) with
  | Except.error e => { res := Except.error e, state := st, permReqs := [], log := [] }
  | Except.ok fs1 =>
      if env.sessionID = "" ∨ env.messageID = "" then
        { res := Except.error "session_id and message_id are required",
          state := { st with fs := fs1 }, permReqs := [], log := [] }
      else if env.permGrant then
        afterGrant env { st with fs := fs1 } content oldContent filePath
          (mkReq env filePath (generateDiff oldContent content filePath))
          (generateDiff oldContent content filePath)
      else
        { res := Except.error "permission denied", state := { st with fs := fs1 },
          permReqs := [mkReq env filePath (generateDiff oldContent content filePath)],
          log := [] }

/-- The body of `writeTool.Run` on the resolved absolute path: the
`os.Stat` dispatch with the directory check, the stale-write guard
(`modTime.After(lastRead)` against the timestamp registry), and the no-op
short circuit (lines 454-473), then `afterGuard` with the pre-image
content (`""` for a path that does not exist). -/
def runValidated (env : Env) (st : WState) (content filePath : String) : RunResult :=
  match st.fs filePath with
  | some FsEntry.dir =>
      { res := Except.ok (textError ("Path is a directory, not a file: " ++ filePath)),
        state := st, permReqs := [], log := [] }
  | some (FsEntry.file oldC mt) =>
      if st.lastRead filePath < mt then
        { res := Except.ok (textError (staleMsg filePath mt (st.lastRead filePath))),
          state := st, permReqs := [], log := [] }
      else if oldC = content then
        { res := Except.ok (textError (noChangesMsg filePath)), state := st,
          permReqs := [], log := [] }
      else afterGuard env st content oldC filePath
  | none => afterGuard env st content "" filePath

/-- The body of `writeTool.Run` once the parameters are decoded and the
default file name substituted: the `content` validation (lines 445-447) and
path resolution against the working directory (lines 449-452), then
`runValidated`. -/
def runResolved (env : Env) (st : WState) (content fp0 : String) : RunResult :=
  if content = "" then
    { res := Except.ok (textError "content is required"), state := st, permReqs := [], log := [] }
  else
    runValidated env st content (if isAbs fp0 then fp0 else joinPath env.workingDir fp0)

/-- The resolved absolute target path of a call. -/
def resolvePath (env : Env) (p : WriteParams) : String :=
  let fp0 := if p.filePath = "" then generateDefaultFilename p.content else p.filePath
  if isAbs fp0 then fp0 else joinPath env.workingDir fp0

/-- Embedding of `writeTool.Run`: the input is `none` when
`json.Unmarshal` fails (the message text of the decoding error is
abstracted), otherwise the decoded `WriteParams` with Go zero values for
absent fields; an empty `file_path` is replaced by
`generateDefaultFilename` before validation, exactly as in the source. -/
def run (env : Env) (st : WState) (input : Option WriteParams) : RunResult :=
  match input with
  | none =>
      { res := Except.ok (textError "error parsing parameters: invalid input"),
        state := st, permReqs := [], log := [] }
  | some params =>
      runResolved env st params.content
        (if params.filePath = "" then generateDefaultFilename params.content else params.filePath)

/-- A benign environment for concrete runs: working directory `/ws`, session
`s`, message `m`, every collaborator succeeding, clock at `5`, no
diagnostics backend. -/
def benignEnv : Env :=
  { workingDir := "/ws", sessionID := "s", messageID := "m", permGrant := true,
    writeOk := true, createOk := true, versionOk := true, now := 5,
    diagnostics := fun _ => "" }

/-- A base state for concrete runs: only the working directory exists, no
reads or writes recorded, empty version store. -/
def baseSt : WState :=
  { fs := fun p => if p = "/ws" then some FsEntry.dir else none,
    lastRead := fun _ => 0, lastWrite := fun _ => 0, hist := fun _ _ => [] }

instance : DecidableEq (Except String ToolResponse) := fun a b =>
  match a, b with
  | Except.error x, Except.error y =>
      if h : x = y then isTrue (by rw [h]) else isFalse (fun q => h (Except.error.inj q))
  | Except.ok x, Except.ok y =>
      if h : x = y then isTrue (by rw [h]) else isFalse (fun q => h (Except.ok.inj q))
  | Except.error _, Except.ok _ => isFalse (fun q => Except.noConfusion q)
  | Except.ok _, Except.error _ => isFalse (fun q => Except.noConfusion q)

/-! Helper lemmas about the embedding. -/

theorem sAppend_cancel {a b c : String} (h : a ++ b = a ++ c) : b = c := by
  have hd := congrArg String.data h
  rw [String.data_append, String.data_append] at hd
  exact String.ext (List.append_cancel_left hd)

theorem head_append (a b : String) (x : Char) (hx : a.data.head? = some x) :
    (a ++ b).data.head? = some x := by
  rw [String.data_append]
  cases ha : a.data with
  | nil => rw [ha] at hx; simp at hx
  | cons c t =>
      rw [ha] at hx
      simp only [List.cons_append, List.head?_cons] at hx ⊢
      exact hx

theorem ne_of_head {a b : String} {x y : Char} (hx : a.data.head? = some x)
    (hy : b.data.head? = some y) (hxy : x ≠ y) : a ≠ b := by
  intro h
  subst h
  rw [hx] at hy
  exact hxy (Option.some.inj hy)

theorem staleMsg_ne_noChangesMsg (f : String) (m r : Nat) :
    staleMsg f m r ≠ noChangesMsg f := by
  intro h
  unfold staleMsg noChangesMsg at h
  have h2 := sAppend_cancel h
  have h3 : ("has been modified since it was last read.\nLast modification: " ++
      (toString m ++ ("\nLast read: " ++
        (toString r ++ "\n\nPlease read the file again before modifying it.")))).data.head?
      = ("already contains the exact content. No changes made." : String).data.head? := by
    rw [h2]
  rw [head_append _ _ 'h' (by decide)] at h3
  have h4 : ("already contains the exact content. No changes made." : String).data.head?
      = some 'a' := by decide
  rw [h4] at h3
  exact absurd (Option.some.inj h3) (by decide)

theorem foldl_dirs_file {q c : String} {mt : Nat} :
    ∀ (l : List String) (fs : FS),
      (l.foldl (fun f p => fsSet f p FsEntry.dir) fs) q = some (FsEntry.file c mt) →
      fs q = some (FsEntry.file c mt) := by
  intro l
  induction l with
  | nil => intro fs h; exact h
  | cons p l ih =>
      intro fs h
      rw [List.foldl_cons] at h
      have h2 := ih _ h
      unfold fsSet at h2
      by_cases hq : q = p
      · rw [if_pos hq] at h2; exact absurd h2 (by simp)
      · rw [if_neg hq] at h2; exact h2

theorem mkdirAll_ok_file {fs : FS} {d : String} {fs1 : FS}
    (h : mkdirAll fs d = Except.ok fs1) {q c : String} {mt : Nat} :
    fs1 q = some (FsEntry.file c mt) → fs q = some (FsEntry.file c mt) := by
  unfold mkdirAll at h
  split at h
  · exact absurd h (by simp)
  · intro hq
    have hcast := Except.ok.inj h
    rw [← hcast] at hq
    exact foldl_dirs_file _ _ hq

theorem foldl_dirs_preserve {q : String} :
    ∀ (l : List String) (fs : FS),
      (l.foldl (fun f p => fsSet f p FsEntry.dir) fs) q = fs q
      ∨ (l.foldl (fun f p => fsSet f p FsEntry.dir) fs) q = some FsEntry.dir := by
  intro l
  induction l with
  | nil => intro fs; exact Or.inl rfl
  | cons p l ih =>
      intro fs
      rw [List.foldl_cons]
      rcases ih (fsSet fs p FsEntry.dir) with h | h
      · rw [h]
        unfold fsSet
        by_cases hq : q = p
        · rw [if_pos hq]; exact Or.inr rfl
        · rw [if_neg hq]; exact Or.inl rfl
      · exact Or.inr h

theorem mkdirAll_ok_dirs {fs : FS} {d : String} {fs1 : FS}
    (h : mkdirAll fs d = Except.ok fs1) (q : String) :
    fs1 q = fs q ∨ fs1 q = some FsEntry.dir := by
  unfold mkdirAll at h
  split at h
  · exact absurd h (by simp)
  · rw [← Except.ok.inj h]
    exact foldl_dirs_preserve _ _

theorem versionPhase_spec (env : Env) (stA : WState) (l c oc f : String)
    (req : CreatePermissionRequest) (d : String × Nat × Nat) :
    (versionPhase env stA l c oc f req d).res = Except.ok
      { content := successBody env f, isError := false,
        metadata := some { diff := d.1, additions := d.2.1, removals := d.2.2 } }
    ∧ (versionPhase env stA l c oc f req d).permReqs = [req]
    ∧ (versionPhase env stA l c oc f req d).state.fs = stA.fs := by
  unfold versionPhase
  by_cases h1 : l ≠ oc <;> by_cases h2 : env.versionOk = true <;> simp [h1, h2]

theorem histPhase_res_ok {env : Env} {st2 : WState} {content oldContent filePath : String}
    {req : CreatePermissionRequest} {d : String × Nat × Nat} {r : ToolResponse}
    (h : (histPhase env st2 content oldContent filePath req d).res = Except.ok r) :
    r.isError = false := by
  unfold histPhase at h
  split at h
  · split at h
    · rw [(versionPhase_spec _ _ _ _ _ _ _ _).1] at h
      rw [← Except.ok.inj h]
    · exact absurd h (by simp)
  · rw [(versionPhase_spec _ _ _ _ _ _ _ _).1] at h
    rw [← Except.ok.inj h]

theorem afterGrant_res_ok {env : Env} {st1 : WState} {content oldContent filePath : String}
    {req : CreatePermissionRequest} {d : String × Nat × Nat} {r : ToolResponse}
    (h : (afterGrant env st1 content oldContent filePath req d).res = Except.ok r) :
    r.isError = false := by
  unfold afterGrant at h
  split at h
  · exact histPhase_res_ok h
  · exact absurd h (by simp)

theorem afterGuard_res_ok {env : Env} {st : WState} {content oldContent filePath : String}
    {r : ToolResponse}
    (h : (afterGuard env st content oldContent filePath).res = Except.ok r) :
    r.isError = false := by
  unfold afterGuard at h
  split at h
  · exact absurd h (by simp)
  · split at h
    · exact absurd h (by simp)
    · split at h
      · exact afterGrant_res_ok h
      · exact absurd h (by simp)

theorem afterGuard_denied (env : Env) (st : WState) (content oldContent filePath : String)
    (h : env.permGrant = false) :
    ((afterGuard env st content oldContent filePath).permReqs ≠ [] →
      (afterGuard env st content oldContent filePath).res = Except.error "permission denied")
    ∧ (afterGuard env st content oldContent filePath).state.hist = st.hist
    ∧ (afterGuard env st content oldContent filePath).state.lastRead = st.lastRead
    ∧ (afterGuard env st content oldContent filePath).state.lastWrite = st.lastWrite
    ∧ (∀ q c2 mt, (afterGuard env st content oldContent filePath).state.fs q
        = some (FsEntry.file c2 mt) → st.fs q = some (FsEntry.file c2 mt))
    ∧ (∀ q, (afterGuard env st content oldContent filePath).state.fs q = st.fs q
        ∨ (afterGuard env st content oldContent filePath).state.fs q = some FsEntry.dir) := by
  unfold afterGuard
  cases hmk : mkdirAll st.fs (dirOf filePath) with
  | error e =>
      exact ⟨fun hx => absurd rfl hx, rfl, rfl, rfl, fun q c2 mt => id,
        fun q => Or.inl rfl⟩
  | ok fs1 =>
      dsimp only
      by_cases hsess : env.sessionID = "" ∨ env.messageID = ""
      · rw [if_pos hsess]
        exact ⟨fun hx => absurd rfl hx, rfl, rfl, rfl,
          fun q c2 mt hq => mkdirAll_ok_file hmk hq,
          fun q => mkdirAll_ok_dirs hmk q⟩
      · rw [if_neg hsess]
        rw [if_neg (by simp [h] : ¬ env.permGrant = true)]
        exact ⟨fun _ => rfl, rfl, rfl, rfl, fun q c2 mt hq => mkdirAll_ok_file hmk hq,
          fun q => mkdirAll_ok_dirs hmk q⟩

theorem run_eq_validated (env : Env) (st : WState) (p : WriteParams) (hc : p.content ≠ "") :
    run env st (some p) = runValidated env st p.content (resolvePath env p) := by
  unfold run runResolved resolvePath
  dsimp only
  rw [if_neg hc]

theorem runValidated_cases (env : Env) (st : WState) (c f : String) :
    ((runValidated env st c f).state = st ∧ (runValidated env st c f).permReqs = [])
    ∨ (∃ oc, runValidated env st c f = afterGuard env st c oc f) := by
  unfold runValidated
  cases hfs : st.fs f with
  | none => exact Or.inr ⟨"", rfl⟩
  | some e =>
      cases e with
      | dir => exact Or.inl ⟨rfl, rfl⟩
      | file oldC mt =>
          dsimp only
          by_cases h1 : st.lastRead f < mt
          · rw [if_pos h1]; exact Or.inl ⟨rfl, rfl⟩
          · rw [if_neg h1]
            by_cases h2 : oldC = c
            · rw [if_pos h2]; exact Or.inl ⟨rfl, rfl⟩
            · rw [if_neg h2]; exact Or.inr ⟨oldC, rfl⟩

theorem run_cases (env : Env) (st : WState) (input : Option WriteParams) :
    ((run env st input).state = st ∧ (run env st input).permReqs = [])
    ∨ (∃ c oc f, c ≠ "" ∧ run env st input = afterGuard env st c oc f) := by
  cases input with
  | none => exact Or.inl ⟨rfl, rfl⟩
  | some p =>
      by_cases hc : p.content = ""
      · left
        unfold run runResolved
        dsimp only
        rw [if_pos hc]
        exact ⟨rfl, rfl⟩
      · rw [run_eq_validated env st p hc]
        rcases runValidated_cases env st p.content (resolvePath env p) with ⟨h1, h2⟩ | ⟨oc, h3⟩
        · exact Or.inl ⟨h1, h2⟩
        · exact Or.inr ⟨p.content, oc, resolvePath env p, hc, h3⟩

theorem gdfSelect_ne_empty (firstLine contentLower : List Char) :
    gdfSelect firstLine contentLower ≠ "" := by
  unfold gdfSelect
  by_cases h1 : pyProbe firstLine contentLower = true
  · rw [if_pos h1]; decide
  rw [if_neg h1]
  by_cases h2 : cppProbe contentLower = true
  · rw [if_pos h2]; decide
  rw [if_neg h2]
  by_cases h3 : cProbe contentLower = true
  · rw [if_pos h3]; decide
  rw [if_neg h3]
  by_cases h4 : javaProbe contentLower = true
  · rw [if_pos h4]; decide
  rw [if_neg h4]
  by_cases h5 : jsProbe contentLower = true
  · rw [if_pos h5]; decide
  rw [if_neg h5]
  by_cases h6 : goProbe contentLower = true
  · rw [if_pos h6]; decide
  rw [if_neg h6]
  by_cases h7 : rustProbe contentLower = true
  · rw [if_pos h7]; decide
  rw [if_neg h7]
  by_cases h8 : htmlProbe contentLower = true
  · rw [if_pos h8]; decide
  rw [if_neg h8]
  by_cases h9 : xmlProbe contentLower = true
  · rw [if_pos h9]; decide
  rw [if_neg h9]
  by_cases h10 : jsonProbe contentLower = true
  · rw [if_pos h10]; decide
  rw [if_neg h10]
  by_cases h11 : shProbe firstLine contentLower = true
  · rw [if_pos h11]; decide
  rw [if_neg h11]
  by_cases h12 : sqlProbe contentLower = true
  · rw [if_pos h12]; decide
  rw [if_neg h12]
  by_cases h13 : mdProbe firstLine contentLower = true
  · rw [if_pos h13]; decide
  rw [if_neg h13]
  by_cases h14 : iniProbe contentLower = true
  · rw [if_pos h14]; decide
  rw [if_neg h14]
  by_cases h15 : yamlProbe firstLine contentLower = true
  · rw [if_pos h15]; decide
  rw [if_neg h15]
  by_cases h16 : csvProbe firstLine contentLower = true
  · rw [if_pos h16]; decide
  rw [if_neg h16]
  decide

theorem gdf_ne_empty (c : String) : generateDefaultFilename c ≠ "" := by
  unfold generateDefaultFilename
  dsimp only
  intro h
  split at h
  · exact absurd h (by decide)
  · exact absurd h (gdfSelect_ne_empty _ _)

theorem histPhase_fs (env : Env) (st2 : WState) (content oldContent filePath : String)
    (req : CreatePermissionRequest) (d : String × Nat × Nat) :
    (histPhase env st2 content oldContent filePath req d).state.fs = st2.fs := by
  unfold histPhase
  split
  · split
    · rw [(versionPhase_spec _ _ _ _ _ _ _ _).2.2]
    · rfl
  · rw [(versionPhase_spec _ _ _ _ _ _ _ _).2.2]

theorem histPhase_permReqs (env : Env) (st2 : WState) (content oldContent filePath : String)
    (req : CreatePermissionRequest) (d : String × Nat × Nat) :
    (histPhase env st2 content oldContent filePath req d).permReqs = [req] := by
  unfold histPhase
  split
  · split
    · rw [(versionPhase_spec _ _ _ _ _ _ _ _).2.1]
    · rfl
  · rw [(versionPhase_spec _ _ _ _ _ _ _ _).2.1]

theorem afterGrant_permReqs (env : Env) (st1 : WState) (content oldContent filePath : String)
    (req : CreatePermissionRequest) (d : String × Nat × Nat) :
    (afterGrant env st1 content oldContent filePath req d).permReqs = [req] := by
  unfold afterGrant
  split
  · rw [histPhase_permReqs]
  · rfl

theorem afterGuard_req_mem {env : Env} {st : WState} {content oldContent filePath : String}
    {req : CreatePermissionRequest}
    (h : req ∈ (afterGuard env st content oldContent filePath).permReqs) :
    req = mkReq env filePath (generateDiff oldContent content filePath) := by
  unfold afterGuard at h
  revert h
  cases hmk : mkdirAll st.fs (dirOf filePath) with
  | error e => intro h; exact absurd h (by simp)
  | ok fs1 =>
      dsimp only
      by_cases hsess : env.sessionID = "" ∨ env.messageID = ""
      · rw [if_pos hsess]
        intro h; exact absurd h (by simp)
      · rw [if_neg hsess]
        by_cases hg : env.permGrant = true
        · rw [if_pos hg]
          rw [afterGrant_permReqs]
          intro h
          exact List.mem_singleton.mp h
        · rw [if_neg hg]
          intro h
          exact List.mem_singleton.mp h

theorem afterGrant_no_empty_file {env : Env} {st1 : WState}
    {content oldContent filePath : String} {req : CreatePermissionRequest}
    {d : String × Nat × Nat} (hcne : content ≠ "") {q : String} {mt : Nat}
    (hq : (afterGrant env st1 content oldContent filePath req d).state.fs q
      = some (FsEntry.file "" mt)) :
    st1.fs q = some (FsEntry.file "" mt) := by
  unfold afterGrant at hq
  by_cases hw : env.writeOk = true
  · rw [if_pos hw] at hq
    rw [histPhase_fs] at hq
    dsimp only at hq
    unfold fsSet at hq
    by_cases hqf : q = filePath
    · rw [if_pos hqf] at hq
      exact absurd (FsEntry.file.inj (Option.some.inj hq)).1 hcne
    · rw [if_neg hqf] at hq; exact hq
  · rw [if_neg hw] at hq; exact hq

theorem afterGuard_no_empty_file {env : Env} {st : WState}
    {content oldContent filePath : String} (hcne : content ≠ "") {q : String} {mt : Nat}
    (hq : (afterGuard env st content oldContent filePath).state.fs q
      = some (FsEntry.file "" mt)) :
    st.fs q = some (FsEntry.file "" mt) := by
  unfold afterGuard at hq
  revert hq
  cases hmk : mkdirAll st.fs (dirOf filePath) with
  | error e => exact id
  | ok fs1 =>
      dsimp only
      by_cases hsess : env.sessionID = "" ∨ env.messageID = ""
      · rw [if_pos hsess]
        intro hq; exact mkdirAll_ok_file hmk hq
      · rw [if_neg hsess]
        by_cases hg : env.permGrant = true
        · rw [if_pos hg]
          intro hq
          exact mkdirAll_ok_file hmk (afterGrant_no_empty_file hcne hq)
        · rw [if_neg hg]
          intro hq; exact mkdirAll_ok_file hmk hq

/-! Claim theorems. -/

/-- C1: for a validated write call whose resolved target exists as a regular
file, the call is rejected as stale exactly when the on-disk modification
time is strictly later than the recorded last-read time (the message naming
the path, the modification time and the last-read time), and on rejection
the state is untouched and no permission request is issued; for a target
that does not exist, no staleness rejection ever occurs. -/
theorem claim1_stale_guard (env : Env) (st : WState) (p : WriteParams)
    (hc : p.content ≠ "") :
    (∀ c mt, st.fs (resolvePath env p) = some (FsEntry.file c mt) →
      (((run env st (some p)).res
          = Except.ok (textError (staleMsg (resolvePath env p) mt
              (st.lastRead (resolvePath env p))))
        ↔ st.lastRead (resolvePath env p) < mt)
      ∧ (st.lastRead (resolvePath env p) < mt →
          (run env st (some p)).state = st ∧ (run env st (some p)).permReqs = [])))
    ∧ (st.fs (resolvePath env p) = none →
        ∀ mt r, (run env st (some p)).res
          ≠ Except.ok (textError (staleMsg (resolvePath env p) mt r))) := by
  have heq := run_eq_validated env st p hc
  constructor
  · intro c mt hf
    rw [heq]
    unfold runValidated
    rw [hf]
    dsimp only
    by_cases hlt : st.lastRead (resolvePath env p) < mt
    · rw [if_pos hlt]
      exact ⟨⟨fun _ => hlt, fun _ => rfl⟩, fun _ => ⟨rfl, rfl⟩⟩
    · rw [if_neg hlt]
      refine ⟨⟨fun hres => ?_, fun h2 => absurd h2 hlt⟩, fun h2 => absurd h2 hlt⟩
      by_cases hceq : c = p.content
      · rw [if_pos hceq] at hres
        have hinj := Except.ok.inj hres
        have hmsg := congrArg ToolResponse.content hinj
        exact absurd hmsg.symm (staleMsg_ne_noChangesMsg _ _ _)
      · rw [if_neg hceq] at hres
        have hflag := afterGuard_res_ok hres
        simp [textError] at hflag
  · intro hnone mt r
    rw [heq]
    unfold runValidated
    rw [hnone]
    dsimp only
    intro hres
    have hflag := afterGuard_res_ok hres
    simp [textError] at hflag

/-- Witness for C1 at a concrete input: a file modified at time 5 but last
read at time 3 is rejected as stale. -/
theorem claim1_stale_guard_witness :
    (run benignEnv
      { fs := fun q => if q = "/ws/a.txt" then some (FsEntry.file "x" 5)
                       else if q = "/ws" then some FsEntry.dir else none,
        lastRead := fun _ => 3, lastWrite := fun _ => 0, hist := fun _ _ => [] }
      (some { filePath := "/ws/a.txt", content := "y" })).res
      = Except.ok (textError (staleMsg
          (resolvePath benignEnv { filePath := "/ws/a.txt", content := "y" }) 5 3)) := by
  exact (((claim1_stale_guard benignEnv _ _ (by decide)).1 "x" 5 (by decide)).1).mpr (by decide)

/-- C5: a validated write call whose target exists as a regular file with
content equal to the new content, and which is not stale, terminates as a
no-op reporting that no changes were made, with unchanged state and no
permission request, and running the identical call again yields the same
result. -/
theorem claim5_noop_short_circuit (env : Env) (st : WState) (p : WriteParams) (mt : Nat)
    (hc : p.content ≠ "")
    (hf : st.fs (resolvePath env p) = some (FsEntry.file p.content mt))
    (hfresh : mt ≤ st.lastRead (resolvePath env p)) :
    (run env st (some p)).res
      = Except.ok (textError (noChangesMsg (resolvePath env p)))
    ∧ (run env st (some p)).state = st
    ∧ (run env st (some p)).permReqs = []
    ∧ run env ((run env st (some p)).state) (some p) = run env st (some p) := by
  have hrun : run env st (some p)
      = { res := Except.ok (textError (noChangesMsg (resolvePath env p))),
          state := st, permReqs := [], log := [] } := by
    rw [run_eq_validated env st p hc]
    unfold runValidated
    rw [hf]
    dsimp only
    rw [if_neg (Nat.not_lt.mpr hfresh)]
    rw [if_pos rfl]
  refine ⟨by rw [hrun], by rw [hrun], by rw [hrun], ?_⟩
  rw [hrun]
  exact hrun

/-- Witness for C5 at a concrete input: rewriting the existing content `x`
is a no-op. -/
theorem claim5_noop_short_circuit_witness :
    (run benignEnv
      { fs := fun q => if q = "/ws/a.txt" then some (FsEntry.file "x" 2)
                       else if q = "/ws" then some FsEntry.dir else none,
        lastRead := fun _ => 3, lastWrite := fun _ => 0, hist := fun _ _ => [] }
      (some { filePath := "/ws/a.txt", content := "x" })).res
      = Except.ok (textError (noChangesMsg
          (resolvePath benignEnv { filePath := "/ws/a.txt", content := "x" }))) := by
  exact (claim5_noop_short_circuit benignEnv _ _ 2 (by decide) (by decide) (by decide)).1

/-- C2 counterexample: with the parent directory missing, a call denied by
the Permission Gate still performs a filesystem mutation — `os.MkdirAll`
created the directory `/ws/a` before the gate was consulted. -/
theorem claim2_counterexample :
    (run { benignEnv with permGrant := false } baseSt
        (some { filePath := "a/b.txt", content := "hello" })).res
      = Except.error "permission denied"
    ∧ baseSt.fs "/ws/a" = none
    ∧ (run { benignEnv with permGrant := false } baseSt
        (some { filePath := "a/b.txt", content := "hello" })).state.fs "/ws/a"
      = some FsEntry.dir := by decide

/-- C2 (amended): when the Permission Gate denies, a call that reached the
gate aborts with the PermissionDenied error, and no side effect follows the
denial: the version store, both timestamp registries and every regular
file are exactly as before the call, and the only filesystem change the
call can have made at all is the creation of parent directories by
`os.MkdirAll` before the gate was consulted — every path is either
untouched or now holds a directory. -/
theorem claim2_denial_frame (env : Env) (st : WState) (input : Option WriteParams)
    (h : env.permGrant = false) :
    ((run env st input).permReqs ≠ [] →
      (run env st input).res = Except.error "permission denied")
    ∧ (run env st input).state.hist = st.hist
    ∧ (run env st input).state.lastRead = st.lastRead
    ∧ (run env st input).state.lastWrite = st.lastWrite
    ∧ (∀ q c mt, (run env st input).state.fs q = some (FsEntry.file c mt) →
        st.fs q = some (FsEntry.file c mt))
    ∧ (∀ q, (run env st input).state.fs q = st.fs q
        ∨ (run env st input).state.fs q = some FsEntry.dir) := by
  rcases run_cases env st input with ⟨h1, h2⟩ | ⟨c, oc, f, hcne, h3⟩
  · exact ⟨fun hx => absurd h2 hx, by rw [h1], by rw [h1], by rw [h1],
      fun q c mt hq => by rw [h1] at hq; exact hq,
      fun q => Or.inl (by rw [h1])⟩
  · rw [h3]
    exact afterGuard_denied env st c oc f h

/-- Witness for C2 at a concrete input: a denied call leaves the version
store untouched. -/
theorem claim2_denial_frame_witness :
    (run { benignEnv with permGrant := false } baseSt
        (some { filePath := "a/b.txt", content := "hello" })).state.hist = baseSt.hist := by
  exact (claim2_denial_frame { benignEnv with permGrant := false } baseSt
    (some { filePath := "a/b.txt", content := "hello" }) rfl).2.1

/-- C3: evaluation at the failing input.  First write of `"neu"` to an
existing file holding `"old"` with no recorded version: the claim requires
the pre-image version to be followed directly by the new version
(`["old", "neu"]`), but the drift check compares the Go zero-valued record
(content `""`) against the pre-image, so the code records the duplicate
lineage `["old", "old", "neu"]`. -/
theorem claim3_first_write_duplicate_version :
    (run benignEnv
      { fs := fun q => if q = "/ws/f.txt" then some (FsEntry.file "old" 0)
                       else if q = "/ws" then some FsEntry.dir else none,
        lastRead := fun _ => 1, lastWrite := fun _ => 0, hist := fun _ _ => [] }
      (some { filePath := "/ws/f.txt", content := "neu" })).state.hist "s" "/ws/f.txt"
      = ["old", "old", "neu"] := by decide

/-- C4: evaluation at the failing input.  The filesystem write of
`/ws/n.txt` succeeds (the file holds the new content afterwards), then the
initial `Create` of the version store fails — and contrary to the claim
(and to the source's own comment, which says the error is logged without
failing the operation) the call returns the `error creating file history`
failure; no version is recorded. -/
theorem claim4_create_failure_fails_call :
    ((run { benignEnv with createOk := false } baseSt
        (some { filePath := "n.txt", content := "hello" })).res
      = Except.error "error creating file history")
    ∧ (run { benignEnv with createOk := false } baseSt
        (some { filePath := "n.txt", content := "hello" })).state.fs "/ws/n.txt"
      = some (FsEntry.file "hello" 5)
    ∧ (run { benignEnv with createOk := false } baseSt
        (some { filePath := "n.txt", content := "hello" })).state.hist "s" "/ws/n.txt"
      = [] := by decide

/-- C6: when the filesystem write itself fails, the call is surfaced as a
tool failure (`error writing file`) and no bookkeeping is left behind: the
version store and both timestamp registries are exactly as before the
call. -/
theorem claim6_io_failure_no_bookkeeping (env : Env) (st : WState) (p : WriteParams)
    (hc : p.content ≠ "")
    (hsess : ¬(env.sessionID = "" ∨ env.messageID = ""))
    (hperm : env.permGrant = true) (hw : env.writeOk = false)
    (hstat : st.fs (resolvePath env p) = none
      ∨ ∃ oc mt, st.fs (resolvePath env p) = some (FsEntry.file oc mt)
          ∧ mt ≤ st.lastRead (resolvePath env p) ∧ oc ≠ p.content)
    (hmk : ∃ fs1, mkdirAll st.fs (dirOf (resolvePath env p)) = Except.ok fs1) :
    (run env st (some p)).res = Except.error "error writing file"
    ∧ (run env st (some p)).state.hist = st.hist
    ∧ (run env st (some p)).state.lastRead = st.lastRead
    ∧ (run env st (some p)).state.lastWrite = st.lastWrite := by
  obtain ⟨fs1, hmk⟩ := hmk
  have hAG : ∀ oc, afterGuard env st p.content oc (resolvePath env p)
      = { res := Except.error "error writing file",
          state := { st with fs := fs1 },
          permReqs := [mkReq env (resolvePath env p)
            (generateDiff oc p.content (resolvePath env p))],
          log := [] } := by
    intro oc
    unfold afterGuard
    rw [hmk]
    dsimp only
    rw [if_neg hsess]
    rw [if_pos hperm]
    unfold afterGrant
    rw [if_neg (by simp [hw] : ¬ env.writeOk = true)]
  rw [run_eq_validated env st p hc]
  unfold runValidated
  rcases hstat with hnone | ⟨oc, mt, hf, hle, hne⟩
  · rw [hnone]
    dsimp only
    rw [hAG ""]
    exact ⟨rfl, rfl, rfl, rfl⟩
  · rw [hf]
    dsimp only
    rw [if_neg (Nat.not_lt.mpr hle)]
    rw [if_neg hne]
    rw [hAG oc]
    exact ⟨rfl, rfl, rfl, rfl⟩

/-- Witness for C6 at a concrete input: a failing write of a fresh file
returns the I/O failure. -/
theorem claim6_io_failure_no_bookkeeping_witness :
    (run { benignEnv with writeOk := false } baseSt
        (some { filePath := "n.txt", content := "hello" })).res
      = Except.error "error writing file" := by
  exact (claim6_io_failure_no_bookkeeping { benignEnv with writeOk := false } baseSt
    { filePath := "n.txt", content := "hello" }
    (by decide) (by decide) rfl rfl (Or.inl (by decide)) ⟨_, rfl⟩).1

/-- C7 counterexample: a call with a missing `file_path` and content
`"hello"` does not fail validation — the tool derives a default filename,
requests permission, and writes `/ws/output.txt`. -/
theorem claim7_counterexample :
    (run benignEnv baseSt (some { filePath := "", content := "hello" })).permReqs ≠ []
    ∧ (run benignEnv baseSt (some { filePath := "", content := "hello" })).state.fs
        "/ws/output.txt" = some (FsEntry.file "hello" 5) := by decide

/-- C7 (amended): unparseable parameters and an empty `content` fail as
textual tool errors with no side effects (no state change, no permission
request); a missing `file_path`, however, does not fail validation: the
call proceeds exactly as if `generateDefaultFilename` of the content had
been passed. -/
theorem claim7_validation (env : Env) (st : WState) (c : String) :
    ((run env st none).res = Except.ok (textError "error parsing parameters: invalid input")
      ∧ (run env st none).state = st ∧ (run env st none).permReqs = [])
    ∧ (∀ p : WriteParams, p.content = "" →
        (run env st (some p)).res = Except.ok (textError "content is required")
        ∧ (run env st (some p)).state = st ∧ (run env st (some p)).permReqs = [])
    ∧ (c ≠ "" →
        run env st (some { filePath := "", content := c })
          = run env st (some { filePath := generateDefaultFilename c, content := c })) := by
  refine ⟨⟨rfl, rfl, rfl⟩, ?_, ?_⟩
  · intro p hp
    unfold run runResolved
    dsimp only
    rw [if_pos hp]
    exact ⟨rfl, rfl, rfl⟩
  · intro hcne
    unfold run
    dsimp only
    rw [if_pos rfl]
    rw [ite_self]

/-- Witness for C7 at concrete inputs: empty content is rejected, and a
missing path behaves like the generated default filename. -/
theorem claim7_validation_witness :
    ((run benignEnv baseSt (some { filePath := "/ws/z.txt", content := "" })).res
      = Except.ok (textError "content is required"))
    ∧ run benignEnv baseSt (some { filePath := "", content := "hello" })
        = run benignEnv baseSt
            (some { filePath := generateDefaultFilename "hello", content := "hello" }) := by
  exact ⟨((claim7_validation benignEnv baseSt "hello").2.1
      { filePath := "/ws/z.txt", content := "" } rfl).1,
    (claim7_validation benignEnv baseSt "hello").2.2 (by decide)⟩

/-- C8: every successfully completing call returns the `<result>` envelope
followed by the diagnostics block (empty when no backend returned
findings), with attached metadata carrying the rendered diff and the
addition/removal counts of this write. -/
theorem claim8_success_response (env : Env) (st : WState) (p : WriteParams) (oldC : String)
    (hc : p.content ≠ "")
    (hsess : ¬(env.sessionID = "" ∨ env.messageID = ""))
    (hperm : env.permGrant = true) (hw : env.writeOk = true)
    (hstat : (st.fs (resolvePath env p) = none ∧ oldC = "")
      ∨ ∃ mt, st.fs (resolvePath env p) = some (FsEntry.file oldC mt)
          ∧ mt ≤ st.lastRead (resolvePath env p) ∧ oldC ≠ p.content)
    (hmk : ∃ fs1, mkdirAll st.fs (dirOf (resolvePath env p)) = Except.ok fs1)
    (hhist : st.hist env.sessionID (resolvePath env p) ≠ [] ∨ env.createOk = true) :
    (run env st (some p)).res = Except.ok
      { content := successBody env (resolvePath env p), isError := false,
        metadata := some
          { diff := (generateDiff oldC p.content (resolvePath env p)).1,
            additions := (generateDiff oldC p.content (resolvePath env p)).2.1,
            removals := (generateDiff oldC p.content (resolvePath env p)).2.2 } } := by
  obtain ⟨fs1, hmk⟩ := hmk
  have hAGres : (afterGuard env st p.content oldC (resolvePath env p)).res
      = Except.ok
        { content := successBody env (resolvePath env p), isError := false,
          metadata := some
            { diff := (generateDiff oldC p.content (resolvePath env p)).1,
              additions := (generateDiff oldC p.content (resolvePath env p)).2.1,
              removals := (generateDiff oldC p.content (resolvePath env p)).2.2 } } := by
    unfold afterGuard
    rw [hmk]
    dsimp only
    rw [if_neg hsess, if_pos hperm]
    unfold afterGrant
    rw [if_pos hw]
    unfold histPhase
    dsimp only
    cases hl : (st.hist env.sessionID (resolvePath env p)).getLast? with
    | none =>
        have hck : env.createOk = true := by
          rcases hhist with hne2 | hck
          · exact absurd (by rwa [List.getLast?_eq_none_iff] at hl) hne2
          · exact hck
        rw [if_pos hck]
        rw [(versionPhase_spec _ _ _ _ _ _ _ _).1]
    | some latest =>
        rw [(versionPhase_spec _ _ _ _ _ _ _ _).1]
  rw [run_eq_validated env st p hc]
  unfold runValidated
  rcases hstat with ⟨hnone, hoc⟩ | ⟨mt, hf, hle, hne⟩
  · subst hoc
    rw [hnone]
    dsimp only
    exact hAGres
  · rw [hf]
    dsimp only
    rw [if_neg (Nat.not_lt.mpr hle)]
    rw [if_neg hne]
    exact hAGres

/-- Witness for C8: the spec's scenario — writing a fresh `notes.txt` with
content `hello` under an empty version store and no diagnostics backend. -/
theorem claim8_success_response_witness :
    (run benignEnv baseSt (some { filePath := "notes.txt", content := "hello" })).res
      = Except.ok
        { content := successBody benignEnv
            (resolvePath benignEnv { filePath := "notes.txt", content := "hello" }),
          isError := false,
          metadata := some
            { diff := (generateDiff "" "hello"
                (resolvePath benignEnv { filePath := "notes.txt", content := "hello" })).1,
              additions := (generateDiff "" "hello"
                (resolvePath benignEnv { filePath := "notes.txt", content := "hello" })).2.1,
              removals := (generateDiff "" "hello"
                (resolvePath benignEnv { filePath := "notes.txt", content := "hello" })).2.2 } } := by
  exact claim8_success_response benignEnv baseSt { filePath := "notes.txt", content := "hello" }
    "" (by decide) (by decide) rfl rfl (Or.inl ⟨by decide, rfl⟩) ⟨_, rfl⟩ (Or.inr rfl)

/-- C9: a call with empty content is rejected with the textual error
`content is required` and no state change and no permission request; and no
run of the tool can ever leave a file holding empty content that did not
hold it before — the tool never truncates a file to empty. -/
theorem claim9_empty_content (env : Env) (st : WState) (p : WriteParams) :
    (p.content = "" →
      (run env st (some p)).res = Except.ok (textError "content is required")
      ∧ (run env st (some p)).state = st ∧ (run env st (some p)).permReqs = [])
    ∧ (∀ input q mt, (run env st input).state.fs q = some (FsEntry.file "" mt) →
        st.fs q = some (FsEntry.file "" mt)) := by
  constructor
  · intro hp
    unfold run runResolved
    dsimp only
    rw [if_pos hp]
    exact ⟨rfl, rfl, rfl⟩
  · intro input q mt hq
    rcases run_cases env st input with ⟨h1, _⟩ | ⟨c, oc, f, hcne, h3⟩
    · rw [h1] at hq; exact hq
    · rw [h3] at hq
      exact afterGuard_no_empty_file hcne hq

/-- Witness for C9 at concrete inputs. -/
theorem claim9_empty_content_witness :
    ((run benignEnv baseSt (some { filePath := "/ws/z.txt", content := "" })).res
      = Except.ok (textError "content is required"))
    ∧ ({ fs := fun q => if q = "/x" then some (FsEntry.file "" 0) else none,
         lastRead := fun _ => 0, lastWrite := fun _ => 0,
         hist := fun _ _ => [] } : WState).fs "/x" = some (FsEntry.file "" 0) := by
  exact ⟨((claim9_empty_content benignEnv baseSt
      { filePath := "/ws/z.txt", content := "" }).1 rfl).1,
    (claim9_empty_content benignEnv
      { fs := fun q => if q = "/x" then some (FsEntry.file "" 0) else none,
        lastRead := fun _ => 0, lastWrite := fun _ => 0, hist := fun _ _ => [] }
      { filePath := "", content := "" }).2 none "/x" 0 (by decide)⟩

/-- C10 counterexample: when the resolved target equals the working
directory itself (and does not exist yet), the permission request's path is
the file path itself, contradicting the claim's `never the file path`
clause. -/
theorem claim10_counterexample :
    (run benignEnv { baseSt with fs := fun _ => none }
        (some { filePath := "/ws", content := "x" })).permReqs.map
        CreatePermissionRequest.path = ["/ws"]
    ∧ (run benignEnv { baseSt with fs := fun _ => none }
        (some { filePath := "/ws", content := "x" })).permReqs.map
        CreatePermissionRequest.paramsFilePath = ["/ws"] := by decide

/-- C10 (amended): every permission request issued by the tool carries the
working directory as its path whenever the working directory is a string
prefix of the resolved file path, and the file's parent directory
otherwise; the request path can coincide with the file path itself only in
the degenerate cases (target equal to the working directory, or a root
path that is its own parent). -/
theorem claim10_permission_path (env : Env) (st : WState) (input : Option WriteParams)
    (req : CreatePermissionRequest) (hreq : req ∈ (run env st input).permReqs) :
    req.toolName = "write"
    ∧ req.path = (if hasPrefixL req.paramsFilePath.data env.workingDir.data
                  then env.workingDir else dirOf req.paramsFilePath) := by
  rcases run_cases env st input with ⟨_, h2⟩ | ⟨c, oc, f, _, h3⟩
  · rw [h2] at hreq
    exact absurd hreq (by simp)
  · rw [h3] at hreq
    have hr := afterGuard_req_mem hreq
    rw [hr]
    exact ⟨rfl, rfl⟩

/-- Witness for C10 at a concrete input: the request for `/ws/a/b.txt`
carries path `/ws`. -/
theorem claim10_permission_path_witness :
    (mkReq benignEnv "/ws/a/b.txt" (generateDiff "" "hello" "/ws/a/b.txt")).toolName = "write"
    ∧ (mkReq benignEnv "/ws/a/b.txt" (generateDiff "" "hello" "/ws/a/b.txt")).path
      = (if hasPrefixL (mkReq benignEnv "/ws/a/b.txt"
            (generateDiff "" "hello" "/ws/a/b.txt")).paramsFilePath.data
            benignEnv.workingDir.data
         then benignEnv.workingDir
         else dirOf (mkReq benignEnv "/ws/a/b.txt"
            (generateDiff "" "hello" "/ws/a/b.txt")).paramsFilePath) := by
  exact claim10_permission_path benignEnv baseSt
    (some { filePath := "a/b.txt", content := "hello" }) _ (by decide)

end OpenCodeWrite
